import Mathlib

/-!
Verification of `src/lib/html-to-figma/helpers/styles.ts`.

The file shallowly embeds the style-to-geometry inference engine of the
repository: the Style Snapshot Reader (`getAppliedComputedStyles`), the
Border Decomposer (`addStrokesFromIndividualBorders`,
`addStrokesFromBorder`), the Corner Radius Mapper (`setBorderRadii`) and
the Constraint Inferencer (`addConstraints`).

External collaborators (`getRgb`, `parseUnits`, `traverse`,
`getComputedStyle`) are not part of the source under verification; they
are modelled abstractly (as function parameters or as an environment),
as the spec directs.  Machine numbers are embedded as `ℚ`; a JavaScript
`NaN` arising from `parseFloat` is embedded as `Option.none`.
-/

/-- A resolved (computed) style of one element: the final post-cascade
string value of each property this subsystem reads.  A missing property
is modelled as the empty string (falsy in JavaScript). -/
structure ComputedStyle where
  width : String := ""
  height : String := ""
  marginLeft : String := ""
  marginRight : String := ""
  marginTop : String := ""
  marginBottom : String := ""
  display : String := ""
  position : String := ""
  verticalAlign : String := ""
  textAlign : String := ""
  justifyContent : String := ""
  alignItems : String := ""
  flexDirection : String := ""
  color : String := ""
  opacity : String := ""
  backgroundColor : String := ""
  border : String := ""
  borderTop : String := ""
  borderLeft : String := ""
  borderRight : String := ""
  borderBottom : String := ""
  borderRadius : String := ""
  backgroundImage : String := ""
  borderColor : String := ""
  boxShadow : String := ""
  borderTopLeftRadius : String := ""
  borderTopRightRadius : String := ""
  borderBottomRightRadius : String := ""
  borderBottomLeftRadius : String := ""
  deriving Repr, DecidableEq

/-- Node kinds relevant to the core (`child.type` strings in the source). -/
inductive NodeType where
  | RECTANGLE
  | TEXT
  | SVG
  | FRAME
  deriving Repr, DecidableEq

/-- Identifier of a live document element (the external DOM is opaque to
this core; elements are looked up in an `Env`). -/
abbrev ElemId := Nat

/-- The loosely-typed back-reference of a LayerNode: either an
`HTMLElement` itself, or a text-like node whose `parentElement` may be
absent (`ref instanceof HTMLElement ? ref : ref.parentElement`). -/
inductive Ref where
  | element (id : ElemId)
  | textNode (parent : Option ElemId)
  deriving Repr, DecidableEq

/-- Per-axis anchoring decision; the string enum of the source. -/
inductive Constraint where
  | CENTER
  | MAX
  | SCALE
  | MIN
  deriving Repr, DecidableEq

/-- The `constraints` pair written by the Constraint Inferencer. -/
structure Constraints where
  horizontal : Constraint
  vertical : Constraint
  deriving Repr, DecidableEq

/-- A solid paint (`{type: "SOLID", color: {r, b, g}, opacity}`). -/
structure SolidPaint where
  r : ℚ
  g : ℚ
  b : ℚ
  opacity : ℚ
  deriving Repr, DecidableEq

/-- The color record produced by the external `getRgb` parser:
channels in `[0,1]` plus an optional alpha (`a` may be `undefined`). -/
structure Rgb where
  r : ℚ
  g : ℚ
  b : ℚ
  a : Option ℚ
  deriving Repr, DecidableEq

/-- The result of the external `parseUnits` length parser
(`null` is modelled by `Option.none`). -/
structure ParsedUnit where
  value : ℚ
  deriving Repr, DecidableEq

/-- The fields of a layer node this core reads or writes.  Numeric
geometry fields are `Option ℚ`, `none` modelling JavaScript `NaN` or an
absent field. -/
structure NodeProps where
  type : NodeType
  ref : Option Ref := none
  constraints : Option Constraints := none
  data : List (String × String) := []
  x : Option ℚ := none
  y : Option ℚ := none
  width : Option ℚ := none
  height : Option ℚ := none
  fills : List SolidPaint := []
  strokes : List SolidPaint := []
  strokeWeight : Option ℤ := none
  topLeftRadius : Option ℚ := none
  topRightRadius : Option ℚ := none
  bottomRightRadius : Option ℚ := none
  bottomLeftRadius : Option ℚ := none
  deriving Repr, DecidableEq

/-- A LayerNode: node fields plus an ordered sequence of children. -/
inductive LayerNode where
  | node (props : NodeProps) (children : List LayerNode)
  deriving Repr

/-- The read-only bounding-box snapshot handed to the Border Decomposer
(`Pick<DOMRect, "top" | "left" | "right" | "bottom" | "width" | "height">`). -/
structure Rect where
  top : ℚ
  left : ℚ
  right : ℚ
  bottom : ℚ
  width : ℚ
  height : ℚ
  deriving Repr, DecidableEq

/-- JavaScript `String.prototype.includes`: substring containment. -/
def strIncludes (s pat : String) : Bool :=
  s.data.tails.any (fun t => pat.data.isPrefixOf t)

/-- JavaScript `String.prototype.endsWith`. -/
def strEndsWith (s suffix : String) : Bool :=
  suffix.data.isSuffixOf s.data

/-- JavaScript `String.prototype.trim`: strip whitespace on both ends. -/
def jsTrim (s : String) : String :=
  String.mk (((s.data.dropWhile Char.isWhitespace).reverse.dropWhile
    Char.isWhitespace).reverse)

/-- Digit run to a natural number. -/
def digitsToNat (l : List Char) : Nat :=
  l.foldl (fun n c => 10 * n + (c.toNat - 48)) 0

/-- JavaScript `parseFloat` restricted to the strings the border regex
captures for the width group (runs of digits and dots): leading integer
part, then an optional fraction after the first dot; `none` models `NaN`
(no digit at all, e.g. `"."`).  Exponents and signs cannot occur in a
`[\d\.]+` capture.  This stage returns the integer part, the fraction
digits' value and the fraction length as naturals. -/
def jsParseFloatParts (s : String) : Option (Nat × Nat × Nat) :=
  let cs := s.data
  let intPart := cs.takeWhile Char.isDigit
  let rest := cs.drop intPart.length
  let fracPart :=
    match rest with
    | '.' :: r => r.takeWhile Char.isDigit
    | _ => []
  if intPart = [] ∧ fracPart = [] then none
  else some (digitsToNat intPart, digitsToNat fracPart, fracPart.length)

/-- The rational value of parsed float parts. -/
def partsToRat (p : Nat × Nat × Nat) : ℚ :=
  (p.1 : ℚ) + (p.2.1 : ℚ) / ((10 : ℚ) ^ p.2.2)

/-- JavaScript `parseFloat` on a `[\d\.]+` capture, as a rational;
`none` models `NaN`. -/
def jsParseFloat (s : String) : Option ℚ :=
  (jsParseFloatParts s).map partsToRat

/-- JavaScript `Math.round` (round half toward positive infinity). -/
def jsRound (q : ℚ) : ℤ := ⌊q + 1 / 2⌋

/-- Subtraction on `Option ℚ`, propagating `NaN` (`none`). -/
def jsSub (a b : Option ℚ) : Option ℚ :=
  match a, b with
  | some x, some y => some (x - y)
  | _, _ => none

/-- JavaScript `rgb.a || 1`: `undefined` (absent) and `0` are both
falsy, so either yields `1`. -/
def jsAlphaOr1 (a : Option ℚ) : ℚ :=
  match a with
  | some x => if x = 0 then 1 else x
  | none => 1

/-- The three capture groups of the shared border regex
`^([\d\.]+)px\s*(\w+)\s*(.*)$`. -/
structure BorderParse where
  width : String
  type : String
  color : String
  deriving Repr, DecidableEq

/-- A `\w` word character (`[A-Za-z0-9_]`). -/
def isWordChar (c : Char) : Bool := c.isAlphanum || c = '_'

/-- The shared border regex `^([\d\.]+)px\s*(\w+)\s*(.*)$` of
`addStrokesFromIndividualBorders` / `addStrokesFromBorder`, as a pure
parser.  `[\d\.]+` is matched greedily (backtracking cannot help since a
shorter match leaves a digit or dot where `p` is required), then the
literal `px`, then greedy `\s*`, a nonempty `\w+` run, greedy `\s*`, and
`(.*)$` takes the remainder — which must contain no line terminator,
since `.` does not match one and `$` (no `m` flag) only matches at the
very end. -/
def parseBorderStr (s : String) : Option BorderParse :=
  let cs := s.data
  let widthChars := cs.takeWhile (fun c => c.isDigit || c = '.')
  let rest := cs.drop widthChars.length
  if widthChars = [] then none
  else
    match rest with
    | 'p' :: 'x' :: rest2 =>
      let rest3 := rest2.dropWhile Char.isWhitespace
      let word := rest3.takeWhile isWordChar
      if word = [] then none
      else
        let rest4 := (rest3.drop word.length).dropWhile Char.isWhitespace
        if rest4.any (fun c => c = '\n' || c = '\r') then none
        else some ⟨String.mk widthChars, String.mk word, String.mk rest4⟩
    | _ => none

/-- Sides of `addStrokesFromIndividualBorders`. -/
inductive Dir where
  | top
  | left
  | right
  | bottom
  deriving Repr, DecidableEq

/-- `computedStyle["border" + capitalize(dir)]`. -/
def borderStrFor (cs : ComputedStyle) : Dir → String
  | Dir.top => cs.borderTop
  | Dir.left => cs.borderLeft
  | Dir.right => cs.borderRight
  | Dir.bottom => cs.borderBottom

/-- `addStrokesFromIndividualBorders` (styles.ts lines 258-314): per-side
border mode.  The external color parser `getRgb` is a parameter;
`layers.push(...)` is embedded as appending to the returned list. -/
def addStrokesFromIndividualBorders (getRgb : String → Option Rgb)
    (dir : Dir) (rect : Rect) (cs : ComputedStyle)
    (layers : List LayerNode) (el : ElemId) : List LayerNode :=
  let computed := borderStrFor cs dir
  if computed = "" then layers
  else
    match parseBorderStr computed with
    | none => layers
    | some pb =>
      if pb.width ≠ "" ∧ pb.width ≠ "0" ∧ pb.type ≠ "none" ∧ pb.color ≠ "" then
        match getRgb pb.color with
        | some rgb =>
          let width : Option ℚ :=
            if dir = Dir.top ∨ dir = Dir.bottom then some rect.width
            else jsParseFloat pb.width
          let height : Option ℚ :=
            if dir = Dir.left ∨ dir = Dir.right then some rect.height
            else jsParseFloat pb.width
          layers ++ [LayerNode.node
            { type := NodeType.RECTANGLE
              ref := some (Ref.element el)
              x :=
                if dir = Dir.left then jsSub (some rect.left) width
                else if dir = Dir.right then some rect.right
                else some rect.left
              y :=
                if dir = Dir.top then jsSub (some rect.top) height
                else if dir = Dir.bottom then some rect.bottom
                else some rect.top
              width := width
              height := height
              fills := [⟨rgb.r, rgb.g, rgb.b, jsAlphaOr1 rgb.a⟩] } []]
        | none => layers
      else layers

/-- `addStrokesFromBorder` (styles.ts lines 316-342): shorthand border
mode, setting `strokes` and `strokeWeight` on the node itself.
`Math.round(parseFloat(width))` on a `NaN` width stays `NaN` (`none`). -/
def addStrokesFromBorder (getRgb : String → Option Rgb)
    (cs : ComputedStyle) (rectNode : NodeProps) : NodeProps :=
  if cs.border = "" then rectNode
  else
    match parseBorderStr cs.border with
    | none => rectNode
    | some pb =>
      if pb.width ≠ "" ∧ pb.width ≠ "0" ∧ pb.type ≠ "none" ∧ pb.color ≠ "" then
        match getRgb pb.color with
        | some rgb =>
          { rectNode with
            strokes := [⟨rgb.r, rgb.g, rgb.b, jsAlphaOr1 rgb.a⟩]
            strokeWeight := (jsParseFloat pb.width).map jsRound }
        | none => rectNode
      else rectNode

example : parseBorderStr "2px solid red" = some ⟨"2", "solid", "red"⟩ := by decide
example : parseBorderStr "0px none rgb(0, 0, 0)" =
    some ⟨"0", "none", "rgb(0, 0, 0)"⟩ := by decide
example : parseBorderStr "none" = none := by decide
example : jsParseFloatParts "0.0" = some (0, 0, 1) := by decide
example : jsParseFloat "0.0" = some 0 := by
  have h : jsParseFloatParts "0.0" = some (0, 0, 1) := by decide
  simp [jsParseFloat, h, partsToRat]
example : jsParseFloat "3.6" = some (18 / 5) := by
  have h : jsParseFloatParts "3.6" = some (3, 6, 1) := by decide
  simp [jsParseFloat, h, partsToRat]
  norm_num
example : jsRound (18 / 5) = 4 := by
  unfold jsRound
  norm_num

/-! ## The Constraint Inferencer (`addConstraints`, styles.ts lines 91-225) -/

/-- What the external DOM provides for one element: its parent element,
its resolved style, and the resolved style observed while its `display`
is forced to `none` by the fixed-size probe (only `width`/`height` are
read in that state). -/
structure ElementRec where
  parent : Option ElemId
  style : ComputedStyle
  hiddenStyle : ComputedStyle

/-- The external document: a lookup from element ids to their records.
`getComputedStyle` is embedded as reading `style` (or `hiddenStyle`
while the probe has the element hidden). -/
structure Env where
  elems : ElemId → ElementRec

/-- `setData(node, key, value)` (styles.ts lines 5-14): create the data
map when absent and set one key.  The map is an insertion-ordered list;
setting an existing key overwrites it in place. -/
def insertKV (k v : String) : List (String × String) → List (String × String)
  | [] => [(k, v)]
  | (k', v') :: rest =>
    if k' = k then (k, v) :: rest else (k', v') :: insertKV k v rest

/-- `setData` on a node's props. -/
def setData (p : NodeProps) (k v : String) : NodeProps :=
  { p with data := insertKV k v p.data }

/-- `el = ref instanceof HTMLElement ? ref : ref.parentElement`
(styles.ts line 102). -/
def refElement : Ref → Option ElemId
  | Ref.element i => some i
  | Ref.textNode p => p

/-- The "justify" signal (styles.ts lines 154-159):
`parentStyle.display === "flex" && ((flexDirection === "row" &&
justifyContent) || (flexDirection === "column" && alignItems))`.
A JavaScript falsy outcome (`false` or the empty string) is `none`; the
chosen property's value is falsy exactly when it is the empty string. -/
def flexJustifySignal (ps : ComputedStyle) : Option String :=
  if ps.display = "flex" then
    if ps.flexDirection = "row" ∧ ps.justifyContent ≠ "" then
      some ps.justifyContent
    else if ps.flexDirection = "column" ∧ ps.alignItems ≠ "" then
      some ps.alignItems
    else none
  else none

/-- The "align" signal (styles.ts lines 173-178):
`parentStyle.display === "flex" && ((flexDirection === "column" &&
justifyContent) || (flexDirection === "row" && alignItems))`. -/
def flexAlignSignal (ps : ComputedStyle) : Option String :=
  if ps.display = "flex" then
    if ps.flexDirection = "column" ∧ ps.justifyContent ≠ "" then
      some ps.justifyContent
    else if ps.flexDirection = "row" ∧ ps.alignItems ≠ "" then
      some ps.alignItems
    else none
  else none

/-- Horizontal auto-margin overrides from the justify signal
(styles.ts lines 161-171). -/
def applyJustifySignal (sig : Option String) (l r : Bool) : Bool × Bool :=
  match sig with
  | some s =>
    if s = "center" then (true, true)
    else if strIncludes s "end" || strIncludes s "right" then (true, false)
    else (l, r)
  | none => (l, r)

/-- Vertical auto-margin overrides from the align signal
(styles.ts lines 179-189). -/
def applyAlignSignal (sig : Option String) (t b : Bool) : Bool × Bool :=
  match sig with
  | some s =>
    if s = "center" then (true, true)
    else if strIncludes s "end" || strIncludes s "bottom" then (true, false)
    else (t, b)
  | none => (t, b)

/-- Horizontal overrides for an inline element from the parent's
`text-align` (styles.ts lines 136-142). -/
def inlineAdjustH (parentTextAlign : String) (l r : Bool) : Bool × Bool :=
  if parentTextAlign = "center" then (true, true)
  else if parentTextAlign = "right" then (true, r)
  else (l, r)

/-- Vertical overrides for an inline element from its own
`vertical-align` (styles.ts lines 144-150). -/
def inlineAdjustV (verticalAlign : String) (t b : Bool) : Bool × Bool :=
  if verticalAlign = "middle" then (true, true)
  else if verticalAlign = "bottom" then (true, false)
  else (t, b)

/-- Horizontal overrides for a TEXT node from its own `text-align`
(styles.ts lines 191-199). -/
def textAdjust (textAlign : String) (l r : Bool) : Bool × Bool :=
  if textAlign = "center" then (true, true)
  else if textAlign = "right" then (true, false)
  else (l, r)

/-- The four auto-margin flags `(left, right, top, bottom)` of one node
after all overrides (styles.ts lines 114-199).  The flags are
initialised from literal `auto` margins (lines 114-117; the computed
object is live, so after the probe's restore these reads observe the
normal style), then overridden in source order: inline adjustments
(lines 135-153), flex-parent signals (lines 154-189), TEXT self
alignment (lines 191-199). -/
def autoMarginFlags (env : Env) (elId pid : ElemId) (ty : NodeType) :
    Bool × Bool × Bool × Bool :=
  let computed := (env.elems elId).style
  let parentStyle := (env.elems pid).style
  let hamL : Bool := computed.marginLeft = "auto"
  let hamR : Bool := computed.marginRight = "auto"
  let hamT : Bool := computed.marginTop = "auto"
  let hamB : Bool := computed.marginBottom = "auto"
  let isInline : Bool :=
    computed.display ≠ "" && strIncludes computed.display "inline"
  let hl1 := if isInline then inlineAdjustH parentStyle.textAlign hamL hamR
             else (hamL, hamR)
  let vt1 := if isInline then inlineAdjustV computed.verticalAlign hamT hamB
             else (hamT, hamB)
  let hl2 := applyJustifySignal (flexJustifySignal parentStyle) hl1.1 hl1.2
  let vt2 := applyAlignSignal (flexAlignSignal parentStyle) vt1.1 vt1.2
  let hl3 := if ty = NodeType.TEXT then textAdjust computed.textAlign hl2.1 hl2.2
             else hl2
  (hl3.1, hl3.2, vt2.1, vt2.2)

/-- The final horizontal resolution (styles.ts lines 202-207):
`left && right ? CENTER : left ? MAX : SCALE`. -/
def resolveHorizontal (l r : Bool) : Constraint :=
  if l && r then Constraint.CENTER
  else if l then Constraint.MAX
  else Constraint.SCALE

/-- The final vertical resolution (styles.ts lines 208-213):
`bottom && top ? CENTER : top ? MAX : MIN`. -/
def resolveVertical (t b : Bool) : Constraint :=
  if b && t then Constraint.CENTER
  else if t then Constraint.MAX
  else Constraint.MIN

/-- The body run for a node whose element and parent element both
resolve (styles.ts lines 105-214).  The fixed-size probe's `width` /
`height` reads happen while the element is hidden (`hiddenStyle`); every
other read happens after the restore (`style`).  `setData` calls only
touch `data`, so the auto-margin flags are computed separately by
`autoMarginFlags`, preserving source order; `child.type` is unchanged by
the `setData` calls, so the original `p.type` is passed to it. -/
def processElement (env : Env) (elId pid : ElemId) (p : NodeProps) :
    NodeProps :=
  let computedHidden := (env.elems elId).hiddenStyle
  let hasFixedWidth : Bool :=
    computedHidden.width ≠ "" && strEndsWith (jsTrim computedHidden.width) "px"
  let hasFixedHeight : Bool :=
    computedHidden.height ≠ "" && strEndsWith (jsTrim computedHidden.height) "px"
  let computed := (env.elems elId).style
  let p1 := if computed.position = "absolute" ∨ computed.position = "fixed"
            then setData p "position" computed.position else p
  let p2 := if hasFixedHeight then setData p1 "heightType" "fixed" else p1
  let p3 := if hasFixedWidth then setData p2 "widthType" "fixed" else p2
  let isInline : Bool :=
    computed.display ≠ "" && strIncludes computed.display "inline"
  let p4 := if isInline then setData p3 "widthType" "shrink" else p3
  let flags := autoMarginFlags env elId pid p.type
  { p4 with
    constraints :=
      some ⟨resolveHorizontal flags.1 flags.2.1,
            resolveVertical flags.2.2.1 flags.2.2.2⟩ }

/-- The per-node action of `addConstraints` (styles.ts lines 93-223):
SVG nodes get a fixed pair; nodes with no back-reference get the
default; otherwise the element and its parent element are resolved and
`processElement` runs, or the node is left untouched when either is
missing. -/
def processNode (env : Env) (p : NodeProps) : NodeProps :=
  if p.type = NodeType.SVG then
    { p with constraints := some ⟨Constraint.CENTER, Constraint.MIN⟩ }
  else
    match p.ref with
    | some r =>
      match refElement r with
      | some elId =>
        match (env.elems elId).parent with
        | some pid => processElement env elId pid p
        | none => p
      | none => p
    | none => { p with constraints := some ⟨Constraint.SCALE, Constraint.MIN⟩ }

mutual

/-- Apply a per-node action to every node of a tree. -/
def mapNode (f : NodeProps → NodeProps) : LayerNode → LayerNode
  | LayerNode.node p cs => LayerNode.node (f p) (mapForest f cs)

/-- Apply a per-node action to every node of a forest. -/
def mapForest (f : NodeProps → NodeProps) : List LayerNode → List LayerNode
  | [] => []
  | t :: ts => mapNode f t :: mapForest f ts

end

/-- `addConstraints(layers)` (styles.ts lines 91-225).  Modelled from
the spec: the external `traverse` utility visits every node of the
forest exactly once (pre-order); since the per-node action reads and
writes only the visited node, the pass is embedded as a structural map
over the forest. -/
def addConstraints (env : Env) (layers : List LayerNode) : List LayerNode :=
  mapForest (processNode env) layers

mutual

/-- The `constraints` of every node of a tree, in pre-order. -/
def nodeConstraintsList : LayerNode → List (Option Constraints)
  | LayerNode.node p cs => p.constraints :: forestConstraintsList cs

/-- The `constraints` of every node of a forest, in pre-order. -/
def forestConstraintsList : List LayerNode → List (Option Constraints)
  | [] => []
  | t :: ts => nodeConstraintsList t ++ forestConstraintsList ts

end

/-! ## The fixed-size probe (styles.ts lines 105-112) -/

/-- The externally visible state the probe mutates: the element's
inline `display` value. -/
structure DomState where
  display : String
  deriving Repr, DecidableEq

/-- The outcome of running the probe: a value or a propagated error,
together with the document state left behind. -/
inductive ProbeOutcome (ε α : Type) where
  | ok (value : α) (finalState : DomState)
  | error (err : ε) (finalState : DomState)

/-- The fixed-size probe (styles.ts lines 105-112) with the reads
between the force-hide and the restore abstracted as a fallible `step`
(in the source: the `getComputedStyle` reads of lines 107-111).  The
source is a straight-line sequence — save `currentDisplay`, force
`display: none`, run the reads, write `currentDisplay` back — with no
`try`/`finally`; a failure inside `step` therefore propagates before the
restoring write executes, exactly as embedded here. -/
def fixedSizeProbe {ε α : Type} (step : DomState → Except ε α)
    (s0 : DomState) : ProbeOutcome ε α :=
  let currentDisplay := s0.display
  let s1 : DomState := { s0 with display := "none" }
  match step s1 with
  | Except.error e => ProbeOutcome.error e s1
  | Except.ok v => ProbeOutcome.ok v { s1 with display := currentDisplay }

/-! ## The Style Snapshot Reader (`getAppliedComputedStyles`, lines 16-89) -/

/-- The runtime kind of the element handed to the reader. -/
inductive ElementKind where
  | htmlElement
  | svgElement
  | other
  deriving Repr, DecidableEq

/-- The fixed allow-list of properties (styles.ts lines 26-38). -/
def stylePropList : List String :=
  ["opacity", "backgroundColor", "border", "borderTop", "borderLeft",
   "borderRight", "borderBottom", "borderRadius", "backgroundImage",
   "borderColor", "boxShadow"]

/-- The hard-coded per-property baseline table (styles.ts lines 42-71),
parameterised by the element's resolved text color. -/
def defaultsTable (color : String) (key : String) : Option String :=
  if key = "transform" then some "none"
  else if key = "opacity" then some "1"
  else if key = "borderRadius" then some "0px"
  else if key = "backgroundImage" then some "none"
  else if key = "backgroundPosition" then some "0% 0%"
  else if key = "backgroundSize" then some "auto"
  else if key = "backgroundColor" then some "rgba(0, 0, 0, 0)"
  else if key = "backgroundAttachment" then some "scroll"
  else if key = "border" then some ("0px none " ++ color)
  else if key = "borderTop" then some ("0px none " ++ color)
  else if key = "borderBottom" then some ("0px none " ++ color)
  else if key = "borderLeft" then some ("0px none " ++ color)
  else if key = "borderRight" then some ("0px none " ++ color)
  else if key = "borderWidth" then some "0px"
  else if key = "borderColor" then some color
  else if key = "borderStyle" then some "none"
  else if key = "boxShadow" then some "none"
  else if key = "fontWeight" then some "400"
  else if key = "textAlign" then some "start"
  else if key = "justifyContent" then some "normal"
  else if key = "alignItems" then some "normal"
  else if key = "alignSelf" then some "auto"
  else if key = "flexGrow" then some "0"
  else if key = "textDecoration" then some ("none solid " ++ color)
  else if key = "lineHeight" then some "normal"
  else if key = "letterSpacing" then some "normal"
  else if key = "backgroundRepeat" then some "repeat"
  else if key = "zIndex" then some "auto"
  else none

/-- Property lookup on the resolved style, for the allow-listed keys. -/
def styleGet (cs : ComputedStyle) (key : String) : String :=
  if key = "opacity" then cs.opacity
  else if key = "backgroundColor" then cs.backgroundColor
  else if key = "border" then cs.border
  else if key = "borderTop" then cs.borderTop
  else if key = "borderLeft" then cs.borderLeft
  else if key = "borderRight" then cs.borderRight
  else if key = "borderBottom" then cs.borderBottom
  else if key = "borderRadius" then cs.borderRadius
  else if key = "backgroundImage" then cs.backgroundImage
  else if key = "borderColor" then cs.borderColor
  else if key = "boxShadow" then cs.boxShadow
  else ""

/-- `getAppliedComputedStyles` (styles.ts lines 16-89): for a rendering
host element, the sparse diff of the allow-listed properties against the
baseline table (`pick` keeps a property only when its value is truthy
and differs from its baseline); for any other element, an empty
mapping. -/
def getAppliedComputedStyles (kind : ElementKind) (cs : ComputedStyle) :
    List (String × String) :=
  if kind = ElementKind.htmlElement ∨ kind = ElementKind.svgElement then
    stylePropList.filterMap (fun path =>
      let v := styleGet cs path
      if v ≠ "" ∧ defaultsTable cs.color path ≠ some v then some (path, v)
      else none)
  else []

/-! ## The Corner Radius Mapper (`setBorderRadii`, lines 227-254) -/

/-- `setBorderRadii` (styles.ts lines 227-254), with the external
`parseUnits` length parser as a parameter.  Each corner writes its field
exactly when the parser returns non-null for that corner's string. -/
def setBorderRadii (parseUnits : String → Option ParsedUnit)
    (cs : ComputedStyle) (rectNode : NodeProps) : NodeProps :=
  let rectNode :=
    match parseUnits cs.borderTopLeftRadius with
    | some u => { rectNode with topLeftRadius := some u.value }
    | none => rectNode
  let rectNode :=
    match parseUnits cs.borderTopRightRadius with
    | some u => { rectNode with topRightRadius := some u.value }
    | none => rectNode
  let rectNode :=
    match parseUnits cs.borderBottomRightRadius with
    | some u => { rectNode with bottomRightRadius := some u.value }
    | none => rectNode
  let rectNode :=
    match parseUnits cs.borderBottomLeftRadius with
    | some u => { rectNode with bottomLeftRadius := some u.value }
    | none => rectNode
  rectNode

/-! ## Helper lemmas -/

theorem setData_type (p : NodeProps) (k v : String) :
    (setData p k v).type = p.type := rfl

theorem setData_ref (p : NodeProps) (k v : String) :
    (setData p k v).ref = p.ref := rfl

theorem ite_setData_type (c : Prop) [Decidable c] (p : NodeProps)
    (k v : String) : (if c then setData p k v else p).type = p.type := by
  split <;> rfl

theorem ite_setData_ref (c : Prop) [Decidable c] (p : NodeProps)
    (k v : String) : (if c then setData p k v else p).ref = p.ref := by
  split <;> rfl

theorem processElement_constraints (env : Env) (elId pid : ElemId)
    (p : NodeProps) :
    (processElement env elId pid p).constraints =
      some ⟨resolveHorizontal (autoMarginFlags env elId pid p.type).1
              (autoMarginFlags env elId pid p.type).2.1,
            resolveVertical (autoMarginFlags env elId pid p.type).2.2.1
              (autoMarginFlags env elId pid p.type).2.2.2⟩ := rfl

theorem processElement_type (env : Env) (elId pid : ElemId) (p : NodeProps) :
    (processElement env elId pid p).type = p.type := by
  unfold processElement
  simp only [ite_setData_type]

theorem processElement_ref (env : Env) (elId pid : ElemId) (p : NodeProps) :
    (processElement env elId pid p).ref = p.ref := by
  unfold processElement
  simp only [ite_setData_ref]

theorem processNode_constraints_idem (env : Env) (p : NodeProps) :
    (processNode env (processNode env p)).constraints =
      (processNode env p).constraints := by
  unfold processNode
  by_cases hsvg : p.type = NodeType.SVG
  · simp [hsvg]
  · simp only [if_neg hsvg]
    cases hr : p.ref with
    | none => simp [hsvg]
    | some r =>
      cases he : refElement r with
      | none => simp [hsvg, hr, he]
      | some elId =>
        cases hp : (env.elems elId).parent with
        | none => simp [hsvg, hr, he, hp]
        | some pid =>
          simp [hsvg, hr, he, hp, processElement_type, processElement_ref,
            processElement_constraints]

mutual

theorem nodeConstraints_map_idem (env : Env) :
    ∀ t : LayerNode,
      nodeConstraintsList (mapNode (processNode env) (mapNode (processNode env) t)) =
        nodeConstraintsList (mapNode (processNode env) t)
  | LayerNode.node p cs => by
    simp only [mapNode, nodeConstraintsList]
    exact congrArg₂ List.cons (processNode_constraints_idem env p)
      (forestConstraints_map_idem env cs)

theorem forestConstraints_map_idem (env : Env) :
    ∀ l : List LayerNode,
      forestConstraintsList (mapForest (processNode env) (mapForest (processNode env) l)) =
        forestConstraintsList (mapForest (processNode env) l)
  | [] => rfl
  | t :: ts => by
    simp only [mapForest, forestConstraintsList]
    exact congrArg₂ List.append (nodeConstraints_map_idem env t)
      (forestConstraints_map_idem env ts)

end

/-! ## Claim theorems -/

/-- Claim C1 (amended): for every node processed by the fixed-size
probe, the element's inline `display` after the probe equals its value
before the probe on every control-flow path on which the intermediate
step (the computed-style reads done while hidden) succeeds; but the
restore is implemented as sequential statements and not as a scoped
acquisition/release, so on a path where that step fails the restore is
skipped and the inline `display` remains the forced `"none"`. -/
theorem fixedSizeProbe_restore {ε α : Type} (step : DomState → Except ε α)
    (s0 : DomState) :
    fixedSizeProbe step s0 =
      (match step ⟨"none"⟩ with
       | Except.ok v => ProbeOutcome.ok v ⟨s0.display⟩
       | Except.error e => ProbeOutcome.error e ⟨"none"⟩) := by
  unfold fixedSizeProbe
  cases h : step ⟨"none"⟩ <;> simp only [h]

/-- Claim C1 counterexample: starting from inline display `"block"`,
a probe whose step between the force-hide and the restore fails leaves
the document with display `"none"`, not the prior `"block"` — the
restore is skippable by an error, so the claim as stated is false. -/
theorem fixedSizeProbe_skip_restore_cex :
    fixedSizeProbe (fun _ => (Except.error () : Except Unit Unit)) ⟨"block"⟩ =
      ProbeOutcome.error () ⟨"none"⟩ ∧ ("none" : String) ≠ "block" :=
  ⟨rfl, by decide⟩

/-- Claim C3: for every node reaching the final resolution step, the
assigned pair is produced by `resolveHorizontal` / `resolveVertical`,
and horizontal is CENTER when both the left and right auto-margin flags
are set, MAX when only the left flag is set, and SCALE otherwise
(including only-right); vertical is CENTER when both top and bottom are
set, MAX when only top is set, and MIN otherwise. -/
theorem resolveConstraints_final_step (env : Env) (elId pid : ElemId)
    (p : NodeProps) :
    (processElement env elId pid p).constraints =
      some ⟨resolveHorizontal (autoMarginFlags env elId pid p.type).1
              (autoMarginFlags env elId pid p.type).2.1,
            resolveVertical (autoMarginFlags env elId pid p.type).2.2.1
              (autoMarginFlags env elId pid p.type).2.2.2⟩ ∧
    (∀ l r : Bool, resolveHorizontal l r =
      (if l && r then Constraint.CENTER
       else if l && !r then Constraint.MAX
       else Constraint.SCALE)) ∧
    (∀ t b : Bool, resolveVertical t b =
      (if t && b then Constraint.CENTER
       else if t && !b then Constraint.MAX
       else Constraint.MIN)) :=
  ⟨processElement_constraints env elId pid p, by decide, by decide⟩

/-- Claim C7: running the Constraint Inferencer a second time on the
same tree, with every element's resolved styles unchanged (the same
environment), assigns every node the same constraints pair as the first
run. -/
theorem addConstraints_idempotent (env : Env) (layers : List LayerNode) :
    forestConstraintsList (addConstraints env (addConstraints env layers)) =
      forestConstraintsList (addConstraints env layers) :=
  forestConstraints_map_idem env layers

/-- Claim C9: every invocation of the per-side Border Decomposer appends
at most one node to the supplied layers sequence, never removes or
modifies a pre-existing entry, and an appended node has type RECTANGLE
and carries the owning element as its `ref`. -/
theorem addStrokesFromIndividualBorders_frame (getRgb : String → Option Rgb)
    (dir : Dir) (rect : Rect) (cs : ComputedStyle) (layers : List LayerNode)
    (el : ElemId) :
    addStrokesFromIndividualBorders getRgb dir rect cs layers el = layers ∨
    ∃ props : NodeProps,
      addStrokesFromIndividualBorders getRgb dir rect cs layers el =
        layers ++ [LayerNode.node props []] ∧
      props.type = NodeType.RECTANGLE ∧
      props.ref = some (Ref.element el) := by
  simp only [addStrokesFromIndividualBorders]
  by_cases h0 : borderStrFor cs dir = ""
  · exact Or.inl (if_pos h0)
  · rw [if_neg h0]
    split
    · exact Or.inl rfl
    · split
      · split
        · exact Or.inr ⟨_, rfl, rfl, rfl⟩
        · exact Or.inl rfl
      · exact Or.inl rfl

/-- Claim C10: the Corner Radius Mapper writes a corner-radius field if
and only if the length parser returns non-null for that corner's string
(writing the parsed value), leaves it untouched otherwise, decides the
four corners independently of one another, and mutates no other field
of the node. -/
theorem setBorderRadii_frame (parseUnits : String → Option ParsedUnit)
    (cs : ComputedStyle) (node : NodeProps) :
    (setBorderRadii parseUnits cs node).topLeftRadius =
      (match parseUnits cs.borderTopLeftRadius with
       | some u => some u.value
       | none => node.topLeftRadius) ∧
    (setBorderRadii parseUnits cs node).topRightRadius =
      (match parseUnits cs.borderTopRightRadius with
       | some u => some u.value
       | none => node.topRightRadius) ∧
    (setBorderRadii parseUnits cs node).bottomRightRadius =
      (match parseUnits cs.borderBottomRightRadius with
       | some u => some u.value
       | none => node.bottomRightRadius) ∧
    (setBorderRadii parseUnits cs node).bottomLeftRadius =
      (match parseUnits cs.borderBottomLeftRadius with
       | some u => some u.value
       | none => node.bottomLeftRadius) ∧
    (setBorderRadii parseUnits cs node).type = node.type ∧
    (setBorderRadii parseUnits cs node).ref = node.ref ∧
    (setBorderRadii parseUnits cs node).constraints = node.constraints ∧
    (setBorderRadii parseUnits cs node).data = node.data ∧
    (setBorderRadii parseUnits cs node).x = node.x ∧
    (setBorderRadii parseUnits cs node).y = node.y ∧
    (setBorderRadii parseUnits cs node).width = node.width ∧
    (setBorderRadii parseUnits cs node).height = node.height ∧
    (setBorderRadii parseUnits cs node).fills = node.fills ∧
    (setBorderRadii parseUnits cs node).strokes = node.strokes ∧
    (setBorderRadii parseUnits cs node).strokeWeight = node.strokeWeight := by
  unfold setBorderRadii
  cases h1 : parseUnits cs.borderTopLeftRadius <;>
    cases h2 : parseUnits cs.borderTopRightRadius <;>
      cases h3 : parseUnits cs.borderBottomRightRadius <;>
        cases h4 : parseUnits cs.borderBottomLeftRadius <;>
          simp_all

/-- Claim C8: the Style Snapshot Reader returns an empty mapping for a
rendering-host element whose resolved value of every allow-listed
property equals that property's hard-coded baseline. -/
theorem getAppliedComputedStyles_baseline_empty (kind : ElementKind)
    (cs : ComputedStyle)
    (hk : kind = ElementKind.htmlElement ∨ kind = ElementKind.svgElement)
    (hbase : ∀ p ∈ stylePropList,
      defaultsTable cs.color p = some (styleGet cs p)) :
    getAppliedComputedStyles kind cs = [] := by
  unfold getAppliedComputedStyles
  rw [if_pos hk, List.filterMap_eq_nil_iff]
  intro a ha
  simp [hbase a ha]

/-- An element whose resolved styles equal every baseline exactly. -/
def baselineStyle : ComputedStyle :=
  { color := "rgb(0, 0, 0)"
    opacity := "1"
    backgroundColor := "rgba(0, 0, 0, 0)"
    border := "0px none rgb(0, 0, 0)"
    borderTop := "0px none rgb(0, 0, 0)"
    borderLeft := "0px none rgb(0, 0, 0)"
    borderRight := "0px none rgb(0, 0, 0)"
    borderBottom := "0px none rgb(0, 0, 0)"
    borderRadius := "0px"
    backgroundImage := "none"
    borderColor := "rgb(0, 0, 0)"
    boxShadow := "none" }

/-- Claim C8 witness: the reader on a concrete all-baseline element. -/
theorem getAppliedComputedStyles_baseline_empty_witness :
    getAppliedComputedStyles ElementKind.htmlElement baselineStyle = [] :=
  getAppliedComputedStyles_baseline_empty ElementKind.htmlElement
    baselineStyle (Or.inl rfl) (by decide)

/-- Running the per-side Border Decomposer once per side, in a fixed
order, as its caller does for an element with non-uniform borders. -/
def addStrokesAllSides (getRgb : String → Option Rgb) (rect : Rect)
    (cs : ComputedStyle) (layers : List LayerNode) (el : ElemId) :
    List LayerNode :=
  addStrokesFromIndividualBorders getRgb Dir.bottom rect cs
    (addStrokesFromIndividualBorders getRgb Dir.right rect cs
      (addStrokesFromIndividualBorders getRgb Dir.left rect cs
        (addStrokesFromIndividualBorders getRgb Dir.top rect cs layers el)
        el) el) el

/-- The resolved per-side border strings of scenario C: side `d` is
`2px solid red`, the other three sides carry the computed form of a
`none` border. -/
def scenarioCStyle (d : Dir) : ComputedStyle :=
  { borderTop := if d = Dir.top then "2px solid red" else "0px none rgb(0, 0, 0)"
    borderLeft := if d = Dir.left then "2px solid red" else "0px none rgb(0, 0, 0)"
    borderRight := if d = Dir.right then "2px solid red" else "0px none rgb(0, 0, 0)"
    borderBottom := if d = Dir.bottom then "2px solid red" else "0px none rgb(0, 0, 0)" }

/-- The synthetic rectangle scenario C must produce for side `d`:
full cross-axis span, thickness 2, flush outside the box edge for
top/left and at the opposite edge coordinate for bottom/right, one
solid fill of the resolved color at opacity 1. -/
def scenarioCNode (d : Dir) (rect : Rect) (c : Rgb) (el : ElemId) :
    NodeProps :=
  match d with
  | Dir.top =>
    { type := NodeType.RECTANGLE, ref := some (Ref.element el)
      x := some rect.left, y := some (rect.top - 2)
      width := some rect.width, height := some 2
      fills := [⟨c.r, c.g, c.b, 1⟩] }
  | Dir.left =>
    { type := NodeType.RECTANGLE, ref := some (Ref.element el)
      x := some (rect.left - 2), y := some rect.top
      width := some 2, height := some rect.height
      fills := [⟨c.r, c.g, c.b, 1⟩] }
  | Dir.right =>
    { type := NodeType.RECTANGLE, ref := some (Ref.element el)
      x := some rect.right, y := some rect.top
      width := some 2, height := some rect.height
      fills := [⟨c.r, c.g, c.b, 1⟩] }
  | Dir.bottom =>
    { type := NodeType.RECTANGLE, ref := some (Ref.element el)
      x := some rect.left, y := some rect.bottom
      width := some rect.width, height := some 2
      fills := [⟨c.r, c.g, c.b, 1⟩] }

/-- Claim C4: with side `d` resolved as `2px solid red` and the other
three sides `none`, processing the four sides appends exactly one
synthetic rectangle: full cross-axis span, thickness 2, positioned at
`box.top - 2` / `box.left - 2` / `box.right` / `box.bottom` for the
respective side, with a single solid fill of the resolved red at
opacity 1 (no alpha in the input). -/
theorem borderSideScenario (getRgb : String → Option Rgb) (c : Rgb)
    (rect : Rect) (layers : List LayerNode) (el : ElemId) (d : Dir)
    (hred : getRgb "red" = some c) (ha : c.a = none) :
    addStrokesAllSides getRgb rect (scenarioCStyle d) layers el =
      layers ++ [LayerNode.node (scenarioCNode d rect c el) []] := by
  have hp2 : parseBorderStr "2px solid red" = some ⟨"2", "solid", "red"⟩ := by
    decide
  have hp0 : parseBorderStr "0px none rgb(0, 0, 0)" =
      some ⟨"0", "none", "rgb(0, 0, 0)"⟩ := by decide
  have hf2 : jsParseFloat "2" = some 2 := by
    have h : jsParseFloatParts "2" = some (2, 0, 0) := by decide
    simp [jsParseFloat, h, partsToRat]
  cases d <;>
    simp [addStrokesAllSides, addStrokesFromIndividualBorders, scenarioCStyle,
      borderStrFor, scenarioCNode, hp2, hp0, hred, ha, hf2, jsAlphaOr1, jsSub]

/-- A color resolver for concrete scenarios: resolves `red`, no alpha. -/
def getRgbRed : String → Option Rgb :=
  fun s => if s = "red" then some ⟨1, 0, 0, none⟩ else none

/-- A concrete element box. -/
def rect0 : Rect := ⟨0, 0, 100, 50, 100, 50⟩

/-- A bare rectangle node. -/
def emptyRectNode : NodeProps := { type := NodeType.RECTANGLE }

/-- Claim C4 witness: the scenario at a concrete box, resolver and
layer list. -/
theorem borderSideScenario_witness :
    addStrokesAllSides getRgbRed rect0 (scenarioCStyle Dir.top) [] 0 =
      [] ++ [LayerNode.node (scenarioCNode Dir.top rect0 ⟨1, 0, 0, none⟩ 0) []] :=
  borderSideScenario getRgbRed ⟨1, 0, 0, none⟩ rect0 [] 0 Dir.top
    (by decide) rfl

/-- Claim C5 (amended): in both border modes, an input whose resolved
border string is missing or fails the pattern, or whose captured width
string is literally `"0"`, or whose parsed style is `none`, is a silent
no-op: nothing is appended and nothing is set.  (The suppression check
compares the captured width string against `"0"`, not the parsed
numeric value — see the counterexample for a zero-valued width that is
not the string `"0"`.) -/
theorem borderSuppression (getRgb : String → Option Rgb) (dir : Dir)
    (rect : Rect) (cs : ComputedStyle) (layers : List LayerNode)
    (el : ElemId) (rectNode : NodeProps) :
    ((match parseBorderStr (borderStrFor cs dir) with
      | none => True
      | some pb => pb.width = "0" ∨ pb.type = "none") →
      addStrokesFromIndividualBorders getRgb dir rect cs layers el = layers) ∧
    ((match parseBorderStr cs.border with
      | none => True
      | some pb => pb.width = "0" ∨ pb.type = "none") →
      addStrokesFromBorder getRgb cs rectNode = rectNode) := by
  constructor
  · intro h
    simp only [addStrokesFromIndividualBorders]
    by_cases h0 : borderStrFor cs dir = ""
    · exact if_pos h0
    · rw [if_neg h0]
      split
      · rfl
      · rename_i pb heq
        rw [heq] at h
        simp only [] at h
        have hno : ¬(pb.width ≠ "" ∧ pb.width ≠ "0" ∧ pb.type ≠ "none" ∧
            pb.color ≠ "") := by
          rintro ⟨-, h2, h3, -⟩
          rcases h with h | h
          · exact h2 h
          · exact h3 h
        rw [if_neg hno]
  · intro h
    simp only [addStrokesFromBorder]
    by_cases h0 : cs.border = ""
    · exact if_pos h0
    · rw [if_neg h0]
      split
      · rfl
      · rename_i pb heq
        rw [heq] at h
        simp only [] at h
        have hno : ¬(pb.width ≠ "" ∧ pb.width ≠ "0" ∧ pb.type ≠ "none" ∧
            pb.color ≠ "") := by
          rintro ⟨-, h2, h3, -⟩
          rcases h with h | h
          · exact h2 h
          · exact h3 h
        rw [if_neg hno]

/-- Border strings that must be suppressed: a non-matching per-side
string and a zero-width shorthand. -/
def suppressedStyle : ComputedStyle :=
  { borderTop := "none", border := "0px none red" }

/-- Claim C5 witness: both modes at concrete suppressed inputs. -/
theorem borderSuppression_witness :
    addStrokesFromIndividualBorders getRgbRed Dir.top rect0 suppressedStyle
      [] 0 = [] ∧
    addStrokesFromBorder getRgbRed suppressedStyle emptyRectNode =
      emptyRectNode := by
  have h := borderSuppression getRgbRed Dir.top rect0 suppressedStyle [] 0
    emptyRectNode
  refine ⟨h.1 ?_, h.2 ?_⟩
  · have hp : parseBorderStr "none" = none := by decide
    simp [suppressedStyle, borderStrFor, hp]
  · have hp : parseBorderStr "0px none red" = some ⟨"0", "none", "red"⟩ := by
      decide
    simp [suppressedStyle, hp]

/-- A per-side border whose parsed numeric width is zero but whose
captured width string is not `"0"`. -/
def zeroWidthStyle : ComputedStyle := { borderTop := "0.0px solid red" }

/-- Claim C5 counterexample: `0.0px solid red` has parsed width zero,
yet the per-side mode appends a rectangle — the suppression check is
the literal string `"0"`, not the parsed number, so the claim as stated
is false. -/
theorem borderZeroWidth_cex :
    jsParseFloat "0.0" = some 0 ∧
    (addStrokesFromIndividualBorders getRgbRed Dir.top rect0 zeroWidthStyle
      [] 0).length = 1 := by
  constructor
  · have h : jsParseFloatParts "0.0" = some (0, 0, 1) := by decide
    simp [jsParseFloat, h, partsToRat]
  · decide

/-- Claim C6 (amended): in both border modes, when the color resolves,
the emitted fill or stroke is a single SOLID paint whose opacity is the
resolved alpha when the alpha is present and non-zero, and `1` when the
alpha is absent or zero (`rgb.a || 1` treats a present `0` as falsy). -/
theorem borderOpacity (getRgb : String → Option Rgb) (dir : Dir)
    (rect : Rect) (cs : ComputedStyle) (layers : List LayerNode)
    (el : ElemId) (rectNode : NodeProps) (pb pbs : BorderParse)
    (rgb rgbs : Rgb) :
    (parseBorderStr (borderStrFor cs dir) = some pb →
     pb.width ≠ "" → pb.width ≠ "0" → pb.type ≠ "none" → pb.color ≠ "" →
     getRgb pb.color = some rgb →
     ∃ props : NodeProps,
       addStrokesFromIndividualBorders getRgb dir rect cs layers el =
         layers ++ [LayerNode.node props []] ∧
       props.fills = [⟨rgb.r, rgb.g, rgb.b, jsAlphaOr1 rgb.a⟩]) ∧
    (parseBorderStr cs.border = some pbs →
     pbs.width ≠ "" → pbs.width ≠ "0" → pbs.type ≠ "none" → pbs.color ≠ "" →
     getRgb pbs.color = some rgbs →
     (addStrokesFromBorder getRgb cs rectNode).strokes =
       [⟨rgbs.r, rgbs.g, rgbs.b, jsAlphaOr1 rgbs.a⟩]) ∧
    (∀ a : Option ℚ, jsAlphaOr1 a =
      (match a with
       | none => 1
       | some x => if x = 0 then 1 else x)) := by
  have hempty : parseBorderStr "" = none := by decide
  refine ⟨?_, ?_, fun a => by cases a <;> rfl⟩
  · intro hp h1 h2 h3 h4 hg
    have h0 : borderStrFor cs dir ≠ "" := by
      intro e
      rw [e, hempty] at hp
      exact Option.noConfusion hp
    simp only [addStrokesFromIndividualBorders]
    rw [if_neg h0]
    split
    · rename_i heq
      rw [heq] at hp
      exact Option.noConfusion hp
    · rename_i pb2 heq
      rw [heq] at hp
      injection hp with hpb
      subst hpb
      rw [if_pos ⟨h1, h2, h3, h4⟩]
      split
      · rename_i rgb2 hgeq
        rw [hgeq] at hg
        injection hg with hr
        subst hr
        exact ⟨_, rfl, rfl⟩
      · rename_i hgeq
        rw [hgeq] at hg
        exact Option.noConfusion hg
  · intro hp h1 h2 h3 h4 hg
    have h0 : cs.border ≠ "" := by
      intro e
      rw [e, hempty] at hp
      exact Option.noConfusion hp
    simp only [addStrokesFromBorder]
    rw [if_neg h0]
    split
    · rename_i heq
      rw [heq] at hp
      exact Option.noConfusion hp
    · rename_i pb2 heq
      rw [heq] at hp
      injection hp with hpb
      subst hpb
      rw [if_pos ⟨h1, h2, h3, h4⟩]
      split
      · rename_i rgb2 hgeq
        rw [hgeq] at hg
        injection hg with hr
        subst hr
        rfl
      · rename_i hgeq
        rw [hgeq] at hg
        exact Option.noConfusion hg

/-- A border style for the opacity scenario, in both modes. -/
def redBorderStyle : ComputedStyle :=
  { borderTop := "2px solid red", border := "2px solid red" }

/-- Claim C6 witness: both modes at a concrete resolver and style. -/
theorem borderOpacity_witness :
    (∃ props : NodeProps,
       addStrokesFromIndividualBorders getRgbRed Dir.top rect0
         redBorderStyle [] 0 = [] ++ [LayerNode.node props []] ∧
       props.fills = [⟨1, 0, 0, jsAlphaOr1 none⟩]) ∧
    (addStrokesFromBorder getRgbRed redBorderStyle emptyRectNode).strokes =
      [⟨1, 0, 0, jsAlphaOr1 none⟩] := by
  have h := borderOpacity getRgbRed Dir.top rect0 redBorderStyle [] 0
    emptyRectNode ⟨"2", "solid", "red"⟩ ⟨"2", "solid", "red"⟩
    ⟨1, 0, 0, none⟩ ⟨1, 0, 0, none⟩
  exact ⟨h.1 (by decide) (by decide) (by decide) (by decide) (by decide)
           (by decide),
         h.2.1 (by decide) (by decide) (by decide) (by decide) (by decide)
           (by decide)⟩

/-- A resolver whose color carries a present alpha equal to zero. -/
def getRgbClear : String → Option Rgb :=
  fun s => if s = "seethrough" then some ⟨0, 0, 0, some 0⟩ else none

/-- A shorthand border whose color resolves with alpha zero. -/
def clearBorderStyle : ComputedStyle := { border := "2px solid seethrough" }

/-- Claim C6 counterexample: the resolved color's alpha is present and
equals 0, but the emitted stroke has opacity 1, not 0 — so "opacity
equals the resolved color's alpha when the alpha is present" is false
as stated. -/
theorem borderOpacity_cex :
    getRgbClear "seethrough" = some ⟨0, 0, 0, some 0⟩ ∧
    (addStrokesFromBorder getRgbClear clearBorderStyle emptyRectNode).strokes =
      [⟨0, 0, 0, 1⟩] ∧
    (1 : ℚ) ≠ 0 := by
  refine ⟨by decide, ?_, by decide⟩
  decide

/-- Claim C2 (amended): for a parent whose computed display is exactly
`flex`, the justify signal is the parent's justify-content when
flex-direction is exactly `row` and the parent's align-items when it is
exactly `column`; for any other flex-direction (e.g. `row-reverse`)
there is no signal.  A `center` signal sets both horizontal auto-margin
flags; a signal containing `end` or `right` sets left-auto true and
right-auto false; in particular a child of a flex `row` parent with
`justify-content: flex-end` and no own auto margins resolves to
horizontal MAX. -/
theorem flexJustify_amended (ps : ComputedStyle) (env : Env) (p : NodeProps)
    (elId pid : ElemId) :
    (ps.display = "flex" → ps.flexDirection = "row" →
      ps.justifyContent ≠ "" →
      flexJustifySignal ps = some ps.justifyContent) ∧
    (ps.display = "flex" → ps.flexDirection = "column" →
      ps.alignItems ≠ "" →
      flexJustifySignal ps = some ps.alignItems) ∧
    (ps.flexDirection ≠ "row" → ps.flexDirection ≠ "column" →
      flexJustifySignal ps = none) ∧
    (∀ l r : Bool, flexJustifySignal ps = some "center" →
      applyJustifySignal (flexJustifySignal ps) l r = (true, true)) ∧
    (∀ (l r : Bool) (s : String), flexJustifySignal ps = some s →
      s ≠ "center" →
      (strIncludes s "end" || strIncludes s "right") = true →
      applyJustifySignal (flexJustifySignal ps) l r = (true, false)) ∧
    (p.type ≠ NodeType.SVG → p.type ≠ NodeType.TEXT →
      p.ref = some (Ref.element elId) →
      (env.elems elId).parent = some pid →
      (env.elems pid).style.display = "flex" →
      (env.elems pid).style.flexDirection = "row" →
      (env.elems pid).style.justifyContent = "flex-end" →
      (env.elems elId).style.marginLeft ≠ "auto" →
      (env.elems elId).style.marginRight ≠ "auto" →
      strIncludes (env.elems elId).style.display "inline" = false →
      Option.map Constraints.horizontal (processNode env p).constraints =
        some Constraint.MAX) := by
  refine ⟨?_, ?_, ?_, ?_, ?_, ?_⟩
  · intro h1 h2 h3
    simp [flexJustifySignal, h1, h2, h3]
  · intro h1 h2 h3
    simp [flexJustifySignal, h1, h2, h3]
  · intro h1 h2
    by_cases hd : ps.display = "flex" <;>
      simp [flexJustifySignal, hd, h1, h2]
  · intro l r hc
    rw [hc]
    simp [applyJustifySignal]
  · intro l r s hs hne hinc
    rw [hs]
    simp [applyJustifySignal, hne, hinc]
  · intro hsvg htext href hpar hd hfd hjc hml hmr hinl
    have hend : (strIncludes "flex-end" "end" ||
        strIncludes "flex-end" "right") = true := by decide
    simp [processNode, refElement, href, hpar, hsvg,
      processElement_constraints, autoMarginFlags, flexJustifySignal,
      applyJustifySignal, resolveHorizontal, hd, hfd, hjc, hml, hmr, hinl,
      htext, hend]

/-- The child element of scenario B: no own margins, block display. -/
def childStyleB : ComputedStyle := {}

/-- The parent of scenario B: flex row, `justify-content: flex-end`. -/
def parentStyleB : ComputedStyle :=
  { display := "flex", flexDirection := "row", justifyContent := "flex-end" }

/-- A two-element document: element 0 is the child of element 1. -/
def envB : Env :=
  ⟨fun i => if i = 0 then ⟨some 1, childStyleB, childStyleB⟩
            else ⟨none, parentStyleB, parentStyleB⟩⟩

/-- The layer node backed by the scenario-B child element. -/
def nodeB : NodeProps :=
  { type := NodeType.FRAME, ref := some (Ref.element 0) }

/-- Claim C2 witness: the amended statement at the concrete scenario-B
document. -/
theorem flexJustify_amended_witness :
    flexJustifySignal parentStyleB = some "flex-end" ∧
    Option.map Constraints.horizontal (processNode envB nodeB).constraints =
      some Constraint.MAX := by
  have h := flexJustify_amended parentStyleB envB nodeB 0 1
  refine ⟨h.1 rfl rfl (by decide), ?_⟩
  exact h.2.2.2.2.2 (by decide) (by decide) rfl (by decide) (by decide)
    (by decide) (by decide) (by decide) (by decide) (by decide)

/-- The justify signal exactly as the claim words it: justify-content
when flex-direction is `row`, align-items otherwise. -/
def flexJustifySignalSpec (ps : ComputedStyle) : String :=
  if ps.flexDirection = "row" then ps.justifyContent else ps.alignItems

/-- A flex parent with `flex-direction: row-reverse` and
`align-items: center`. -/
def rowRevParentStyle : ComputedStyle :=
  { display := "flex", flexDirection := "row-reverse",
    alignItems := "center", justifyContent := "normal" }

/-- A document putting element 0 under the row-reverse flex parent. -/
def envRR : Env :=
  ⟨fun i => if i = 0 then ⟨some 1, {}, {}⟩
            else ⟨none, rowRevParentStyle, rowRevParentStyle⟩⟩

/-- The layer node backed by the row-reverse parent's child. -/
def nodeRR : NodeProps :=
  { type := NodeType.FRAME, ref := some (Ref.element 0) }

/-- Claim C2 counterexample: for a flex parent with `flex-direction:
row-reverse` and `align-items: center`, the claim's signal (align-items
when not row) is `center`, which would force both horizontal flags and
CENTER; the code compares flex-direction against `row` and `column`
exactly, produces no signal, and resolves horizontal SCALE. -/
theorem flexJustify_cex :
    flexJustifySignalSpec rowRevParentStyle = "center" ∧
    flexJustifySignal rowRevParentStyle = none ∧
    (processNode envRR nodeRR).constraints =
      some ⟨Constraint.SCALE, Constraint.MIN⟩ ∧
    Constraint.SCALE ≠ Constraint.CENTER := by
  refine ⟨by decide, by decide, ?_, by decide⟩
  decide
